import Mathlib

/-!
Verification of the OAuth/session token lifecycle manager and process
supervisor of the `docker-hytale-server` repository.

The embedding translates `src/token-manager.ts` (token store, device
authorization polling, OAuth refresh, session acquisition, background
refresh loop) and the shutdown handler of the TypeScript entrypoint into
Lean.  Environment interaction (filesystem, network, clock) is made
explicit:

* the on-disk token file is a `FileState` value threaded through the
  functions (the JSON parse outcome of the file is represented directly,
  with a `corrupt` constructor standing for empty or unparsable content,
  on which `JSON.parse` throws and the catch handler returns `null`);
* each network endpoint is an oracle argument holding the response the
  server would deliver;
* `Date.now()` is an integer millisecond clock threaded explicitly, and
  `new Date(ms).toISOString()` / `new Date(s).getTime()` are parameter
  functions `iso : Int → String` and `dateMs : String → Option Int`
  (`none` standing for a `NaN` result, which makes every numeric
  comparison in the source evaluate to `false`);
* JavaScript truthiness of optional string-valued JSON fields is
  `truthy` below (`undefined` and `""` are the falsy string values).

Arithmetic is exact (`Int`/`ℚ`) where the source uses doubles; for the
millisecond magnitudes involved the double computations of the source
are exact or correctly rounded well within the compared margins.
-/

namespace HytaleServer

/-- JS truthiness for an optional string-valued JSON field: `undefined`
(absent) and the empty string are falsy. -/
def truthy : Option String → Bool
  | none => false
  | some s => s ≠ ""

/-- `OAuthTokens` as in `token-manager.ts`: `refreshedAt` is optional. -/
structure OAuthTokens where
  accessToken : String
  refreshToken : String
  expiresAt : String
  refreshedAt : Option String
deriving Repr, DecidableEq

/-- `SessionTokens` as in `token-manager.ts`. -/
structure SessionTokens where
  sessionToken : String
  identityToken : String
  profileUuid : String
  expiresAt : String
deriving Repr, DecidableEq

/-- The JSON document stored in the token file (fields may be absent). -/
structure StoredDoc where
  accessToken : Option String
  refreshToken : Option String
  expiresAt : Option String
  refreshedAt : Option String
deriving Repr, DecidableEq

/-- The state of the token file on disk.  `corrupt` stands for a file
whose content `JSON.parse` rejects (empty file included). -/
inductive FileState where
  | missing
  | corrupt
  | stored (doc : StoredDoc)
deriving Repr, DecidableEq

/-- `loadOAuthTokens` (`token-manager.ts` lines 94-117): returns `null`
for a missing file, for unparsable content (the `try`/`catch` turns the
`JSON.parse` exception into `null`), and for a document whose
`refreshToken` field is falsy; otherwise rebuilds the token value,
defaulting `accessToken`/`expiresAt` to `""` when falsy. -/
def loadOAuthTokens : FileState → Option OAuthTokens
  | .missing => none
  | .corrupt => none
  | .stored d =>
    if truthy d.refreshToken then
      some { accessToken := d.accessToken.getD ""
             refreshToken := d.refreshToken.getD ""
             expiresAt := d.expiresAt.getD ""
             refreshedAt := d.refreshedAt }
    else
      none

/-- `saveOAuthTokens` (`token-manager.ts` lines 122-134): writes the
three token fields and stamps `refreshedAt` with the current time
(`new Date().toISOString()`, passed here as the string `nowIso`),
ignoring any `refreshedAt` carried by the argument. -/
def saveOAuthTokens (t : OAuthTokens) (nowIso : String) : StoredDoc :=
  { accessToken := some t.accessToken
    refreshToken := some t.refreshToken
    expiresAt := some t.expiresAt
    refreshedAt := some nowIso }

/-- `clearTokens` (`token-manager.ts` lines 186-196) deletes the token
file.  No code path in the repository invokes it. -/
def clearTokens : FileState → FileState := fun _ => .missing

/-- `isAccessTokenExpired` (`token-manager.ts` lines 139-149): `true`
for a falsy `expiresAt`; otherwise compares the parsed time against
`now + 60000`.  An unparsable date yields `NaN`, and `NaN <= x` is
`false`, so the function returns `false` (the `catch` is unreachable:
`new Date` does not throw). -/
def isAccessTokenExpired (dateMs : String → Option Int) (now : Int)
    (t : OAuthTokens) : Bool :=
  if t.expiresAt = "" then true
  else
    match dateMs t.expiresAt with
    | none => false
    | some e => decide (e ≤ now + 60000)

/-- `isRefreshTokenExpiringSoon` (`token-manager.ts` lines 155-181):
`false` when `refreshedAt` is absent; otherwise computes
`daysSinceRefresh = (now - refreshedAt) / 86400000` and returns whether
it is `≥ 30 - OAUTH_REFRESH_THRESHOLD_DAYS` (the threshold is the
parameter `thresholdDays`, default 7).  An unparsable `refreshedAt`
yields `NaN` and the comparison is `false`. -/
def isRefreshTokenExpiringSoon (dateMs : String → Option Int)
    (thresholdDays : Int) (now : Int) (t : OAuthTokens) : Bool :=
  match t.refreshedAt with
  | none => false
  | some s =>
    match dateMs s with
    | none => false
    | some r =>
      let daysSinceRefresh : ℚ := ((now - r : Int) : ℚ) / (86400000 : ℚ)
      let refreshAfterDays : ℚ := (30 : ℚ) - (thresholdDays : ℚ)
      decide (refreshAfterDays ≤ daysSinceRefresh)

/-- Response shape of the token endpoint (`TokenResponse` interface). -/
structure TokenResponse where
  access_token : Option String
  refresh_token : Option String
  expires_in : Int
  error : Option String
deriving Repr, DecidableEq

/-- Response shape of the device-authorization endpoint
(`DeviceAuthResponse` interface, together with the optional `error`
field the source checks on it). -/
structure DeviceAuthResponse where
  device_code : String
  user_code : String
  verification_uri : String
  verification_uri_complete : String
  expires_in : Int
  interval : Int
  error : Option String
deriving Repr, DecidableEq

structure Profile where
  uuid : String
  username : String
deriving Repr, DecidableEq

/-- Response shape of the profile-listing endpoint. -/
structure ProfilesResponse where
  owner : String
  profiles : List Profile
deriving Repr, DecidableEq

/-- Response shape of the session-exchange endpoint. -/
structure GameSessionResponse where
  sessionToken : String
  identityToken : String
  expiresAt : String
deriving Repr, DecidableEq

/-- Outcome of a `fetch`: either a 2xx body or a non-ok HTTP status. -/
inductive HttpResult (α : Type) where
  | ok (body : α)
  | httpError (status : Nat)
deriving Repr, DecidableEq

/-- Observable side effects of the token manager: token-store reads and
writes and the outbound network calls, in program order. -/
inductive Effect where
  | loadStore
  | saveStore (doc : StoredDoc)
  | clearStore
  | fetchDeviceAuth
  | fetchTokenRefresh
  | fetchTokenPoll
  | fetchProfiles
  | fetchSession
deriving Repr, DecidableEq

/-- `startDeviceAuth` (`token-manager.ts` lines 205-228): one POST to
the device endpoint; throws on a non-2xx status or a truthy `error`
field of the body. -/
def startDeviceAuth (resp : HttpResult DeviceAuthResponse) :
    Except String DeviceAuthResponse :=
  match resp with
  | .httpError status => .error ("Device auth failed: HTTP " ++ toString status)
  | .ok d =>
    if truthy d.error then .error ("Device auth failed: " ++ d.error.getD "")
    else .ok d

/-- State of the `pollForToken` loop: the clock (ms), the current poll
interval (ms), the index of the next token-endpoint response to consume,
and the token-store writes performed so far. -/
structure PollSt where
  time : Int
  pollInterval : Int
  k : Nat
  saves : List StoredDoc
deriving Repr, DecidableEq

/-- The action the `switch (data.error)` of `pollForToken` selects. -/
inductive PollStep where
  | pending
  | slowDown
  | terminalError (msg : String)
  | invalidPayload
  | success (a r : String) (expIn : Int)
deriving Repr, DecidableEq

/-- The `switch (data.error)` dispatch of `pollForToken`
(`token-manager.ts` lines 256-292), arm by arm: `authorization_pending`
continues, `slow_down` widens the interval, `expired_token` and
`access_denied` throw their fixed messages, any other error string
throws `Token error: ...`, and `undefined` is a success provided both
token fields are truthy (else `Invalid token response`). -/
def pollDispatch (data : TokenResponse) : PollStep :=
  match data.error with
  | some "authorization_pending" => .pending
  | some "slow_down" => .slowDown
  | some "expired_token" => .terminalError "Device code expired"
  | some "access_denied" => .terminalError "User denied authorization"
  | some e => .terminalError ("Token error: " ++ e)
  | none =>
    if truthy data.access_token = false ∨ truthy data.refresh_token = false then
      .invalidPayload
    else
      .success (data.access_token.getD "") (data.refresh_token.getD "")
        data.expires_in

/-- The `while (Date.now() < deadline)` loop of `pollForToken`
(`token-manager.ts` lines 241-296).  Each iteration sleeps
`pollInterval` (advancing the clock; the fetch itself is modelled as
instantaneous), consumes the next response of the token endpoint and
acts on it per `pollDispatch`.  `fuel` bounds the recursion; `none`
means the bound was too small for the run (the source loop has no such
bound and can iterate as long as the deadline allows). -/
def runPoll (resps : Nat → TokenResponse) (deadline : Int)
    (iso : Int → String) :
    Nat → PollSt → Option (Except String OAuthTokens × PollSt)
  | 0, _ => none
  | fuel + 1, st =>
    if st.time < deadline then
      let t := st.time + st.pollInterval
      let st1 : PollSt := { st with time := t, k := st.k + 1 }
      match pollDispatch (resps st.k) with
      | .pending => runPoll resps deadline iso fuel st1
      | .slowDown =>
          runPoll resps deadline iso fuel
            { st1 with pollInterval := st1.pollInterval + 5000 }
      | .terminalError msg => some (.error msg, st1)
      | .invalidPayload => some (.error "Invalid token response", st1)
      | .success a r expIn =>
        let tokens : OAuthTokens :=
          { accessToken := a
            refreshToken := r
            expiresAt := iso (t + expIn * 1000)
            refreshedAt := none }
        let doc := saveOAuthTokens tokens (iso t)
        some (.ok tokens, { st1 with saves := st1.saves ++ [doc] })
    else
      some (.error "Device authorization timed out", st)

/-- `pollForToken` entry (`token-manager.ts` lines 233-240): the
deadline is `Date.now() + expiresIn * 1000` and the initial poll
interval is `interval * 1000`. -/
def pollForToken (resps : Nat → TokenResponse) (iso : Int → String)
    (interval expiresIn now : Int) (fuel : Nat) :
    Option (Except String OAuthTokens × PollSt) :=
  runPoll resps (now + expiresIn * 1000) iso fuel
    { time := now, pollInterval := interval * 1000, k := 0, saves := [] }

/-- `refreshOAuthTokens` (`token-manager.ts` lines 329-369): re-loads
the stored tokens, posts the refresh grant, and on `data.error` throws a
generic `Token refresh failed` error without touching the store; on
success keeps the old refresh token when the response carries no truthy
one, computes `expiresAt` from `expires_in`, and saves. -/
def refreshOAuthTokens (file : FileState) (resp : TokenResponse)
    (now : Int) (iso : Int → String) :
    Except String OAuthTokens × FileState × List Effect :=
  match loadOAuthTokens file with
  | none => (.error "No refresh token available", file, [.loadStore])
  | some stored =>
    if stored.refreshToken = "" then
      (.error "No refresh token available", file, [.loadStore])
    else
      match resp.error with
      | some e =>
        (.error ("Token refresh failed: " ++ e), file,
          [.loadStore, .fetchTokenRefresh])
      | none =>
        if truthy resp.access_token = false then
          (.error "No access token in refresh response", file,
            [.loadStore, .fetchTokenRefresh])
        else
          let tokens : OAuthTokens :=
            { accessToken := resp.access_token.getD ""
              refreshToken :=
                if truthy resp.refresh_token then resp.refresh_token.getD ""
                else stored.refreshToken
              expiresAt := iso (now + resp.expires_in * 1000)
              refreshedAt := none }
          let doc := saveOAuthTokens tokens (iso now)
          (.ok tokens, .stored doc,
            [.loadStore, .fetchTokenRefresh, .saveStore doc])

/-- `createGameSession` (`token-manager.ts` lines 423-464) together with
`getGameProfiles`: fetches the profile list, takes `profiles[0]`, then
exchanges it for a session; throws on non-ok statuses, an empty profile
list, or a falsy session/identity token in the response. -/
def createGameSession (profilesResp : HttpResult ProfilesResponse)
    (sessionResp : HttpResult GameSessionResponse) :
    Except String SessionTokens × List Effect :=
  match profilesResp with
  | .httpError status =>
    (.error ("Failed to get profiles: HTTP " ++ toString status), [.fetchProfiles])
  | .ok profiles =>
    match profiles.profiles with
    | [] => (.error "No game profiles found", [.fetchProfiles])
    | profile :: _ =>
      match sessionResp with
      | .httpError status =>
        (.error ("Failed to create game session: HTTP " ++ toString status),
          [.fetchProfiles, .fetchSession])
      | .ok session =>
        if session.sessionToken = "" ∨ session.identityToken = "" then
          (.error "Invalid session response", [.fetchProfiles, .fetchSession])
        else
          (.ok { sessionToken := session.sessionToken
                 identityToken := session.identityToken
                 profileUuid := profile.uuid
                 expiresAt := session.expiresAt },
            [.fetchProfiles, .fetchSession])

/-- The environment configuration `acquireSessionTokens` consults:
the session/identity-token override variables (empty string when unset,
matching the falsy check of the source) and `AUTO_AUTH_ON_START`. -/
structure Env where
  sessionToken : String
  identityToken : String
  ownerUuid : String
  autoAuthOnStart : Bool
deriving Repr, DecidableEq

/-- The external world an acquisition run interacts with: the token
file and one response oracle per endpoint (`pollResps` indexed by poll
number), plus the clock at the start of the run. -/
structure World where
  file : FileState
  refreshResp : TokenResponse
  deviceResp : HttpResult DeviceAuthResponse
  pollResps : Nat → TokenResponse
  profilesResp : HttpResult ProfilesResponse
  sessionResp : HttpResult GameSessionResponse
  now : Int

/-- Result of an acquisition run: the returned value, the final token
file, and the trace of store/network effects. -/
structure AcqResult where
  result : Option SessionTokens
  file : FileState
  trace : List Effect
deriving Repr, DecidableEq

/-- Replay the token-store writes of a poll run onto the file. -/
def applySaves (file : FileState) (saves : List StoredDoc) : FileState :=
  saves.foldl (fun _ d => .stored d) file

/-- Effects of a poll run: one token-endpoint fetch per consumed
response and one store write per save. -/
def pollTrace (st : PollSt) : List Effect :=
  List.replicate st.k .fetchTokenPoll ++ st.saves.map .saveStore

/-- The device-authorization fallback of `acquireSessionTokens`
(`token-manager.ts` lines 516-529): when `AUTO_AUTH_ON_START` is set,
run `deviceAuthFlow` (challenge then poll) and exchange the resulting
access token; every failure is caught and yields `null`.  `none` means
the poll fuel bound was exhausted (model artifact only). -/
def deviceBranch (env : Env) (w : World) (iso : Int → String)
    (fuel : Nat) (file : FileState) (tr : List Effect) : Option AcqResult :=
  if env.autoAuthOnStart then
    match startDeviceAuth w.deviceResp with
    | .error _ => some { result := none, file := file, trace := tr ++ [.fetchDeviceAuth] }
    | .ok d =>
      match pollForToken w.pollResps iso d.interval d.expires_in w.now fuel with
      | none => none
      | some (.error _, st) =>
        some { result := none, file := applySaves file st.saves,
               trace := tr ++ [.fetchDeviceAuth] ++ pollTrace st }
      | some (.ok _, st) =>
        match createGameSession w.profilesResp w.sessionResp with
        | (.ok s, es2) =>
          some { result := some s, file := applySaves file st.saves,
                 trace := tr ++ [.fetchDeviceAuth] ++ pollTrace st ++ es2 }
        | (.error _, es2) =>
          some { result := none, file := applySaves file st.saves,
                 trace := tr ++ [.fetchDeviceAuth] ++ pollTrace st ++ es2 }
  else
    some { result := none, file := file, trace := tr }

/-- `acquireSessionTokens` (`token-manager.ts` lines 474-530):
environment override first (verbatim tokens, empty `expiresAt`, no
other effect); else load, refresh when the access token is expired
(failures null out the in-memory tokens only), exchange for a session,
and fall back to the device flow. -/
def acquireSessionTokens (env : Env) (w : World)
    (dateMs : String → Option Int) (iso : Int → String) (fuel : Nat) :
    Option AcqResult :=
  if env.sessionToken ≠ "" then
    some { result := some { sessionToken := env.sessionToken
                            identityToken := env.identityToken
                            profileUuid := env.ownerUuid
                            expiresAt := "" }
           file := w.file
           trace := [] }
  else
    match loadOAuthTokens w.file with
    | none => deviceBranch env w iso fuel w.file [.loadStore]
    | some t0 =>
      let step :=
        if isAccessTokenExpired dateMs w.now t0 then
          match refreshOAuthTokens w.file w.refreshResp w.now iso with
          | (.ok t, f, es) => (some t, f, es)
          | (.error _, f, es) => ((none : Option OAuthTokens), f, es)
        else (some t0, w.file, ([] : List Effect))
      match step with
      | (some _, file1, tr1) =>
        match createGameSession w.profilesResp w.sessionResp with
        | (.ok s, es2) =>
          some { result := some s, file := file1,
                 trace := [.loadStore] ++ tr1 ++ es2 }
        | (.error _, es2) =>
          deviceBranch env w iso fuel file1 ([.loadStore] ++ tr1 ++ es2)
      | (none, file1, tr1) =>
        deviceBranch env w iso fuel file1 ([.loadStore] ++ tr1)

/-- State of the background OAuth refresh machinery
(`token-manager.ts` lines 536-573): the module-level
`refreshLoopRunning` flag and the number of spawned background loops
that have not yet exited. -/
structure RefreshLoopState where
  running : Bool
  activeLoops : Nat
deriving Repr, DecidableEq

/-- Before any call: flag clear, no loop spawned. -/
def initialRefreshLoopState : RefreshLoopState :=
  { running := false, activeLoops := 0 }

/-- `startOAuthRefreshLoop`: returns early when the flag is set,
otherwise sets it and schedules one new background loop. -/
def startOAuthRefreshLoop (s : RefreshLoopState) : RefreshLoopState :=
  if s.running then s
  else { running := true, activeLoops := s.activeLoops + 1 }

/-- `stopOAuthRefreshLoop`: clears the flag; running loops only observe
it at their next cooperative check. -/
def stopOAuthRefreshLoop (s : RefreshLoopState) : RefreshLoopState :=
  { s with running := false }

/-- One cooperative check of a spawned loop (`while (refreshLoopRunning)`):
with the flag set the loop performs its tick and continues; with the
flag clear it exits. -/
def refreshLoopCheck (s : RefreshLoopState) : RefreshLoopState :=
  if s.running then s else { s with activeLoops := s.activeLoops - 1 }

/-- Interleaved events acting on the refresh-loop state. -/
inductive LoopEv where
  | start
  | stop
  | check
deriving Repr, DecidableEq

def loopStepEv (s : RefreshLoopState) : LoopEv → RefreshLoopState
  | .start => startOAuthRefreshLoop s
  | .stop => stopOAuthRefreshLoop s
  | .check => refreshLoopCheck s

/-- Run an event sequence from the initial state. -/
def runLoopEvents (evs : List LoopEv) : RefreshLoopState :=
  evs.foldl loopStepEv initialRefreshLoopState

/-- Signals the shutdown handler can send. -/
inductive Sig where
  | sigterm
  | sigkill
deriving Repr, DecidableEq

/-- The addressee of a `kill`: a single process id or a process group. -/
inductive SigTarget where
  | pid (n : Int)
  | group (n : Int)
deriving Repr, DecidableEq

structure SigEvent where
  time : Int
  sig : Sig
  target : SigTarget
deriving Repr, DecidableEq

/-- The supervised child: its pid, its process-group id, and the time
(ms after the graceful signal) at which it exits, `none` when it
ignores the signal. -/
structure ChildBehavior where
  pid : Int
  pgid : Int
  exitsAfter : Option Int
deriving Repr, DecidableEq

/-- The `shutdown` handler of `setupSignalHandlers` in the TypeScript
entrypoint: `javaProcess.kill("SIGTERM")` at once (pid-addressed; Bun
subprocess `kill` signals the direct child only), then a 30000 ms timer
that fires `javaProcess.kill("SIGKILL")` unless `await javaProcess.exited`
resolved first and cleared it.  The bash `cleanup` handler of
`scripts/entrypoint.sh` behaves identically (`kill -SIGTERM "$PID"`, a
30 x 1 s wait loop, then `kill -SIGKILL "$PID"`), likewise addressing
the pid. -/
def shutdownEvents (c : ChildBehavior) : List SigEvent :=
  { time := 0, sig := .sigterm, target := .pid c.pid } ::
    (match c.exitsAfter with
     | some e =>
       if e < 30000 then []
       else [{ time := 30000, sig := .sigkill, target := .pid c.pid }]
     | none => [{ time := 30000, sig := .sigkill, target := .pid c.pid }])

instance {ε α : Type} [DecidableEq ε] [DecidableEq α] :
    DecidableEq (Except ε α) := fun x y =>
  match x, y with
  | .error a, .error b => decidable_of_iff (a = b) (by simp)
  | .error _, .ok _ => isFalse (by simp)
  | .ok _, .error _ => isFalse (by simp)
  | .ok a, .ok b => decidable_of_iff (a = b) (by simp)

/-- A token-endpoint response carrying `authorization_pending`. -/
def pendingResp : TokenResponse :=
  { access_token := none, refresh_token := none, expires_in := 0,
    error := some "authorization_pending" }

/-- A fixed world value used to instantiate universally quantified
world arguments in witnesses. -/
def trivialWorld : World :=
  { file := .missing
    refreshResp := { access_token := none, refresh_token := none,
                     expires_in := 0, error := none }
    deviceResp := .httpError 500
    pollResps := fun _ => { access_token := none, refresh_token := none,
                            expires_in := 0, error := none }
    profilesResp := .httpError 500
    sessionResp := .httpError 500
    now := 0 }

/-- A `start` event is guarded when it does not occur in the window
where the flag is clear but a previously spawned loop is still alive
(i.e. has not yet performed the cooperative check that exits it). -/
def guardedFrom (s : RefreshLoopState) : List LoopEv → Bool
  | [] => true
  | ev :: evs =>
    (match ev with
     | .start => s.running || s.activeLoops == 0
     | .stop => true
     | .check => true) && guardedFrom (loopStepEv s ev) evs

/-! ### Theorems -/

/-- C2 (counterexample): saving and re-loading does not return the
original value — `saveOAuthTokens` overwrites `refreshedAt` with the
save-time stamp, so a token value carrying an older `refreshedAt` does
not round-trip. -/
theorem saveLoad_not_roundtrip_refreshedAt :
    loadOAuthTokens (.stored (saveOAuthTokens
      { accessToken := "a", refreshToken := "r", expiresAt := "e",
        refreshedAt := some "2020-01-01T00:00:00.000Z" }
      "2024-06-01T00:00:00.000Z")) ≠
    some { accessToken := "a", refreshToken := "r", expiresAt := "e",
           refreshedAt := some "2020-01-01T00:00:00.000Z" } := by
  decide

/-- C2 (amended): for a token value with a nonempty refresh token,
save-then-load returns the value with `accessToken`, `refreshToken` and
`expiresAt` intact and `refreshedAt` replaced by the save timestamp. -/
theorem saveLoad_roundtrip (t : OAuthTokens) (s : String)
    (h : t.refreshToken ≠ "") :
    loadOAuthTokens (.stored (saveOAuthTokens t s)) =
      some { accessToken := t.accessToken, refreshToken := t.refreshToken,
             expiresAt := t.expiresAt, refreshedAt := some s } := by
  simp [loadOAuthTokens, saveOAuthTokens, truthy, h]

/-- C2 (witness): the amended round-trip at a concrete token value. -/
theorem saveLoad_roundtrip_witness :
    ("r" : String) ≠ "" ∧
    loadOAuthTokens (.stored (saveOAuthTokens
      { accessToken := "a", refreshToken := "r", expiresAt := "e",
        refreshedAt := none } "sNow")) =
      some { accessToken := "a", refreshToken := "r", expiresAt := "e",
             refreshedAt := some "sNow" } :=
  ⟨by decide,
   saveLoad_roundtrip
     { accessToken := "a", refreshToken := "r", expiresAt := "e",
       refreshedAt := none } "sNow" (by decide)⟩

/-- C9: `loadOAuthTokens` returns `none` for a missing file, for
empty or unparsable content (the `corrupt` state, where `JSON.parse`
throws and the handler returns `null`), and for a parsed document
whose `refreshToken` field is absent or empty; being a total function
into `Option`, it raises nothing in any of these states. -/
theorem load_tolerates_corruption :
    loadOAuthTokens .missing = none ∧
    loadOAuthTokens .corrupt = none ∧
    ∀ d : StoredDoc, truthy d.refreshToken = false →
      loadOAuthTokens (.stored d) = none := by
  refine ⟨rfl, rfl, ?_⟩
  intro d h
  simp [loadOAuthTokens, h]

/-- C9 (witness): the malformed-document case at a concrete document
with an empty `refreshToken`. -/
theorem load_tolerates_corruption_witness :
    truthy (some "") = false ∧
    loadOAuthTokens (.stored
      { accessToken := some "x", refreshToken := some "",
        expiresAt := none, refreshedAt := none }) = none :=
  ⟨by decide,
   load_tolerates_corruption.2.2
     { accessToken := some "x", refreshToken := some "",
       expiresAt := none, refreshedAt := none } (by decide)⟩

/-- C5: `isRefreshTokenExpiringSoon` is `false` when `refreshedAt` is
absent, and when `refreshedAt` parses to `r` it is `true` exactly when
`now - r ≥ (30 - threshold) * 86400000`, the boundary instant
included (the source compares with `>=`). -/
theorem isRefreshAging_boundary (dateMs : String → Option Int)
    (T now : Int) (t : OAuthTokens) :
    (t.refreshedAt = none →
      isRefreshTokenExpiringSoon dateMs T now t = false) ∧
    (∀ s r, t.refreshedAt = some s → dateMs s = some r →
      (isRefreshTokenExpiringSoon dateMs T now t = true ↔
        (30 - T) * 86400000 ≤ now - r)) := by
  constructor
  · intro h
    simp [isRefreshTokenExpiringSoon, h]
  · intro s r hs hr
    simp only [isRefreshTokenExpiringSoon, hs, hr]
    rw [decide_eq_true_iff]
    rw [le_div_iff₀ (by norm_num : (0 : ℚ) < 86400000)]
    constructor <;> intro h <;> exact_mod_cast h

/-- C5 (witness): the boundary instant `now - r = 23 * 86400000` with
the default 7-day threshold, at a concrete parse function. -/
theorem isRefreshAging_boundary_witness :
    (some "t0" : Option String) = some "t0" ∧
    (fun s => if s = "t0" then some (0 : Int) else none) "t0" = some 0 ∧
    (isRefreshTokenExpiringSoon
        (fun s => if s = "t0" then some (0 : Int) else none) 7
        (23 * 86400000)
        { accessToken := "a", refreshToken := "r", expiresAt := "e",
          refreshedAt := some "t0" } = true ↔
      (30 - 7) * 86400000 ≤ (23 * 86400000 : Int) - 0) :=
  ⟨rfl, rfl,
   (isRefreshAging_boundary
      (fun s => if s = "t0" then some (0 : Int) else none) 7
      (23 * 86400000)
      { accessToken := "a", refreshToken := "r", expiresAt := "e",
        refreshedAt := some "t0" }).2 "t0" 0 rfl rfl⟩

/-- C4: with the environment session-token override set (truthy), the
acquisition short-circuits to the override tokens verbatim with empty
`expiresAt`, leaves the token file untouched and produces an empty
effect trace — no store read or write and no network call. -/
theorem envOverride_shortCircuit (env : Env) (w : World)
    (dateMs : String → Option Int) (iso : Int → String) (fuel : Nat)
    (h : env.sessionToken ≠ "") :
    acquireSessionTokens env w dateMs iso fuel =
      some { result := some { sessionToken := env.sessionToken
                              identityToken := env.identityToken
                              profileUuid := env.ownerUuid
                              expiresAt := "" }
             file := w.file
             trace := [] } := by
  simp [acquireSessionTokens, h]

/-- C4 (witness): the short-circuit at a concrete override environment. -/
theorem envOverride_shortCircuit_witness :
    ("st" : String) ≠ "" ∧
    acquireSessionTokens
      { sessionToken := "st", identityToken := "it", ownerUuid := "uu",
        autoAuthOnStart := true }
      trivialWorld (fun _ => none) (fun _ => "") 5 =
      some { result := some { sessionToken := "st", identityToken := "it",
                              profileUuid := "uu", expiresAt := "" }
             file := FileState.missing
             trace := [] } :=
  ⟨by decide,
   envOverride_shortCircuit
     { sessionToken := "st", identityToken := "it", ownerUuid := "uu",
       autoAuthOnStart := true }
     trivialWorld (fun _ => none) (fun _ => "") 5 (by decide)⟩

/-- Tokens returned by `loadOAuthTokens` always carry a nonempty
refresh token. -/
theorem load_refreshToken_ne (file : FileState) (st : OAuthTokens)
    (h : loadOAuthTokens file = some st) : st.refreshToken ≠ "" := by
  cases file with
  | missing => simp [loadOAuthTokens] at h
  | corrupt => simp [loadOAuthTokens] at h
  | stored d =>
    cases hd : d.refreshToken with
    | none => simp [loadOAuthTokens, truthy, hd] at h
    | some s =>
      by_cases hs : s = ""
      · simp [loadOAuthTokens, truthy, hd, hs] at h
      · simp [loadOAuthTokens, truthy, hd, hs] at h
        rw [← h]
        simpa using hs

/-- C6: a successful refresh saves a document whose `refreshedAt` is
the current time, whose `accessToken` and `expiresAt` come from the
server response, and whose `refreshToken` is the server-issued one when
the response carries a truthy one and the previously stored one
otherwise. -/
theorem refresh_success_updates (file : FileState) (resp : TokenResponse)
    (now : Int) (iso : Int → String) (st : OAuthTokens)
    (hload : loadOAuthTokens file = some st)
    (herr : resp.error = none)
    (hacc : truthy resp.access_token = true) :
    ∃ t doc es, refreshOAuthTokens file resp now iso = (.ok t, .stored doc, es) ∧
      doc.refreshedAt = some (iso now) ∧
      doc.accessToken = resp.access_token ∧
      doc.expiresAt = some (iso (now + resp.expires_in * 1000)) ∧
      (truthy resp.refresh_token = true → doc.refreshToken = resp.refresh_token) ∧
      (truthy resp.refresh_token = false → doc.refreshToken = some st.refreshToken) := by
  have hrt := load_refreshToken_ne file st hload
  simp only [refreshOAuthTokens, hload, hrt, if_false, herr, hacc]
  refine ⟨_, _, _, rfl, rfl, ?_, rfl, ?_, ?_⟩
  · cases ha : resp.access_token with
    | none => rw [ha] at hacc; simp [truthy] at hacc
    | some a => simp [saveOAuthTokens]
  · intro h
    cases hr : resp.refresh_token with
    | none => rw [hr] at h; simp [truthy] at h
    | some r =>
      rw [hr] at h
      simp [saveOAuthTokens, hr, h]
  · intro h
    simp [saveOAuthTokens, h]

/-- C6 (witness): stored `refreshToken = "abc"`, a refresh response
with a new access token and no refresh token: the saved document
retains `"abc"` and stamps `refreshedAt` with the current time. -/
theorem refresh_success_updates_witness :
    loadOAuthTokens (.stored
      { accessToken := some "oldacc", refreshToken := some "abc",
        expiresAt := some "past", refreshedAt := none }) =
      some { accessToken := "oldacc", refreshToken := "abc",
             expiresAt := "past", refreshedAt := none } ∧
    ∃ t doc es,
      refreshOAuthTokens
        (.stored { accessToken := some "oldacc", refreshToken := some "abc",
                   expiresAt := some "past", refreshedAt := none })
        { access_token := some "newacc", refresh_token := none,
          expires_in := 3600, error := none }
        0 (fun n => toString n) = (.ok t, .stored doc, es) ∧
      doc.refreshedAt = some ((fun n => toString n) (0 : Int)) ∧
      doc.accessToken = some "newacc" ∧
      doc.expiresAt = some ((fun n => toString n) ((0 : Int) + 3600 * 1000)) ∧
      (truthy (none : Option String) = true → doc.refreshToken = none) ∧
      (truthy (none : Option String) = false → doc.refreshToken = some "abc") :=
  ⟨by decide,
   refresh_success_updates
     (.stored { accessToken := some "oldacc", refreshToken := some "abc",
                expiresAt := some "past", refreshedAt := none })
     { access_token := some "newacc", refresh_token := none,
       expires_in := 3600, error := none }
     0 (fun n => toString n)
     { accessToken := "oldacc", refreshToken := "abc",
       expiresAt := "past", refreshedAt := none }
     (by decide) rfl (by decide)⟩

/-- C3 (counterexample): the shutdown handler never addresses the
child's process group — at a concrete child with pid 100 and process
group 200 that ignores the graceful signal, no emitted termination
signal targets the group. -/
theorem stop_does_not_signal_process_group :
    ¬ ∃ ev ∈ shutdownEvents { pid := 100, pgid := 200, exitsAfter := none },
      ev.sig = .sigterm ∧ ev.target = .group 200 := by
  decide

/-- C3 (amended): the handler sends `SIGTERM` to the child pid at once
(pid-addressed, never the process group), and `SIGKILL` — also
pid-addressed — fires exactly at the 30000 ms grace boundary, never
before, and only when the child has not exited within the grace
period; a child that ignores the signal does receive it. -/
theorem stop_graceful_then_kill (c : ChildBehavior) :
    (∀ ev ∈ shutdownEvents c, ev.target = .pid c.pid) ∧
    ({ time := 0, sig := .sigterm, target := .pid c.pid } : SigEvent) ∈
      shutdownEvents c ∧
    (∀ ev ∈ shutdownEvents c, ev.sig = .sigkill → ev.time = 30000) ∧
    (∀ e, c.exitsAfter = some e → e < 30000 →
      ∀ ev ∈ shutdownEvents c, ev.sig ≠ .sigkill) ∧
    (c.exitsAfter = none →
      ({ time := 30000, sig := .sigkill, target := .pid c.pid } : SigEvent) ∈
        shutdownEvents c) := by
  refine ⟨?_, ?_, ?_, ?_, ?_⟩
  · intro ev hev
    unfold shutdownEvents at hev
    cases he : c.exitsAfter with
    | none =>
      rw [he] at hev
      simp at hev
      rcases hev with rfl | rfl <;> rfl
    | some e =>
      rw [he] at hev
      by_cases h : e < 30000
      · simp [h] at hev
        rw [hev]
      · simp [h] at hev
        rcases hev with rfl | rfl <;> rfl
  · unfold shutdownEvents
    cases c.exitsAfter <;> simp
  · intro ev hev hk
    unfold shutdownEvents at hev
    cases he : c.exitsAfter with
    | none =>
      rw [he] at hev
      simp at hev
      rcases hev with rfl | rfl
      · simp at hk
      · rfl
    | some e =>
      rw [he] at hev
      by_cases h : e < 30000
      · simp [h] at hev
        rw [hev] at hk
        simp at hk
      · simp [h] at hev
        rcases hev with rfl | rfl
        · simp at hk
        · rfl
  · intro e he hlt ev hev
    unfold shutdownEvents at hev
    rw [he] at hev
    simp [hlt] at hev
    rw [hev]
    simp
  · intro he
    unfold shutdownEvents
    rw [he]
    simp

/-- C3 (witness): the amended statement instantiated at a child that
ignores the graceful signal — the forced kill is pid-addressed. -/
theorem stop_graceful_then_kill_witness :
    ({ time := 30000, sig := .sigkill, target := .pid 100 } : SigEvent) ∈
      shutdownEvents { pid := 100, pgid := 200, exitsAfter := none } ∧
    ({ time := 30000, sig := .sigkill, target := .pid 100 } : SigEvent).target =
      .pid (100 : Int) :=
  ⟨by decide,
   (stop_graceful_then_kill { pid := 100, pgid := 200, exitsAfter := none }).1
     { time := 30000, sig := .sigkill, target := .pid 100 } (by decide)⟩

/-- C7 (counterexample): the polling loop can terminate after the
deadline.  With `expiresIn = 1` (deadline 1000 ms past start) and a
5-second poll interval, the iteration started just before the deadline
sleeps past it and the loop only fails at 5000 ms — later than the
deadline. -/
theorem poll_terminates_after_deadline :
    (runPoll (fun _ => pendingResp) 1000 (fun _ => "") 3
        { time := 0, pollInterval := 5000, k := 0, saves := [] }).map
      (fun p => p.2.time) = some 5000 ∧
    ¬ ((5000 : Int) ≤ 1000) := by
  constructor
  · decide
  · decide

/-- Any completed `runPoll` run only widens the poll interval, and
ends either where it started (entry already past the deadline) or at a
time below `deadline + final interval`. -/
theorem runPoll_state_bound (resps : Nat → TokenResponse) (deadline : Int)
    (iso : Int → String) :
    ∀ (fuel : Nat) (st : PollSt) (r : Except String OAuthTokens) (st' : PollSt),
      runPoll resps deadline iso fuel st = some (r, st') →
      st.pollInterval ≤ st'.pollInterval ∧
      ((st'.time = st.time ∧ deadline ≤ st.time) ∨
        st'.time < deadline + st'.pollInterval) := by
  intro fuel
  induction fuel with
  | zero => intro st r st' h; simp [runPoll] at h
  | succ n ih =>
    intro st r st' h
    rw [runPoll] at h
    by_cases hlt : st.time < deadline
    · rw [if_pos hlt] at h
      rcases hd : pollDispatch (resps st.k) with _ | _ | msg | _ | ⟨a, rr, expIn⟩ <;>
        rw [hd] at h
      · obtain ⟨h1, h2⟩ := ih { st with time := st.time + st.pollInterval, k := st.k + 1 } r st' h
        simp only at h1 h2
        refine ⟨by omega, Or.inr ?_⟩
        rcases h2 with ⟨heq, hge⟩ | hb <;> omega
      · obtain ⟨h1, h2⟩ :=
          ih { st with time := st.time + st.pollInterval,
                       pollInterval := st.pollInterval + 5000, k := st.k + 1 } r st' h
        simp only at h1 h2
        refine ⟨by omega, Or.inr ?_⟩
        rcases h2 with ⟨heq, hge⟩ | hb <;> omega
      · simp only [Option.some_inj, Prod.mk.injEq] at h
        obtain ⟨rfl, rfl⟩ := h
        exact ⟨by simp, Or.inr (by simp only; omega)⟩
      · simp only [Option.some_inj, Prod.mk.injEq] at h
        obtain ⟨rfl, rfl⟩ := h
        exact ⟨by simp, Or.inr (by simp only; omega)⟩
      · simp only [Option.some_inj, Prod.mk.injEq] at h
        obtain ⟨rfl, rfl⟩ := h
        exact ⟨by simp, Or.inr (by simp only; omega)⟩
    · rw [if_neg hlt] at h
      simp only [Option.some_inj, Prod.mk.injEq] at h
      obtain ⟨rfl, rfl⟩ := h
      exact ⟨le_refl _, Or.inl ⟨rfl, by omega⟩⟩

/-- With a positive poll interval, fuel exceeding the millisecond gap
to the deadline suffices for `runPoll` to complete. -/
theorem runPoll_terminates (resps : Nat → TokenResponse) (deadline : Int)
    (iso : Int → String) :
    ∀ (fuel : Nat) (st : PollSt), 1 ≤ st.pollInterval →
      (deadline - st.time).toNat < fuel →
      (runPoll resps deadline iso fuel st).isSome = true := by
  intro fuel
  induction fuel with
  | zero => intro st h1 h2; omega
  | succ n ih =>
    intro st h1 h2
    rw [runPoll]
    by_cases hlt : st.time < deadline
    · rw [if_pos hlt]
      rcases hd : pollDispatch (resps st.k) with _ | _ | msg | _ | ⟨a, rr, expIn⟩ <;>
        simp only [hd]
      · refine ih { st with time := st.time + st.pollInterval, k := st.k + 1 } ?_ ?_
        · show 1 ≤ st.pollInterval
          omega
        · show (deadline - (st.time + st.pollInterval)).toNat < n
          omega
      · refine ih { st with time := st.time + st.pollInterval,
                            pollInterval := st.pollInterval + 5000, k := st.k + 1 } ?_ ?_
        · show 1 ≤ st.pollInterval + 5000
          omega
        · show (deadline - (st.time + st.pollInterval)).toNat < n
          omega
      · simp
      · simp
      · simp
    · rw [if_neg hlt]
      simp

/-- C7 (amended): the loop never starts a poll at or after the
deadline, so a completed run beginning on time ends no later than the
deadline plus the final poll interval (the final sleep may overshoot
the deadline, which is why "no later than the deadline" itself fails);
a positive interval with sufficient recursion fuel guarantees
completion; and a run whose clock has reached the deadline fails with
the timeout error `Device authorization timed out`, distinct from both
the denial and the expiry errors. -/
theorem poll_deadline_amended (resps : Nat → TokenResponse)
    (deadline : Int) (iso : Int → String) (fuel : Nat) (st : PollSt) :
    (∀ r st', runPoll resps deadline iso fuel st = some (r, st') →
      st.time ≤ deadline → 0 ≤ st.pollInterval →
      st'.time ≤ deadline + st'.pollInterval) ∧
    (1 ≤ st.pollInterval → (deadline - st.time).toNat < fuel →
      (runPoll resps deadline iso fuel st).isSome = true) ∧
    (∀ r st', runPoll resps deadline iso fuel st = some (r, st') →
      deadline ≤ st.time →
      r = .error "Device authorization timed out" ∧
      r ≠ .error "User denied authorization" ∧
      r ≠ .error "Device code expired") := by
  refine ⟨?_, ?_, ?_⟩
  · intro r st' h hle hnn
    obtain ⟨h1, h2⟩ := runPoll_state_bound resps deadline iso fuel st r st' h
    rcases h2 with ⟨heq, hge⟩ | hb <;> omega
  · exact runPoll_terminates resps deadline iso fuel st
  · intro r st' h hge
    cases fuel with
    | zero => simp [runPoll] at h
    | succ n =>
      rw [runPoll, if_neg (by omega)] at h
      simp only [Option.some_inj, Prod.mk.injEq] at h
      obtain ⟨rfl, rfl⟩ := h
      refine ⟨rfl, by simp, by simp⟩

/-- C7 (witness): the amended bound at a concrete all-pending run that
overshot the deadline by its final poll interval. -/
theorem poll_deadline_amended_witness :
    runPoll (fun _ => pendingResp) 1000 (fun _ => "") 3
        { time := 0, pollInterval := 5000, k := 0, saves := [] } =
      some (.error "Device authorization timed out",
        { time := 5000, pollInterval := 5000, k := 1, saves := [] }) ∧
    (5000 : Int) ≤ 1000 + 5000 :=
  ⟨by decide,
   (poll_deadline_amended (fun _ => pendingResp) 1000 (fun _ => "") 3
      { time := 0, pollInterval := 5000, k := 0, saves := [] }).1
     (.error "Device authorization timed out")
     { time := 5000, pollInterval := 5000, k := 1, saves := [] }
     (by decide) (by decide) (by decide)⟩

/-- A response whose `error` is `authorization_pending` dispatches to
the continue-polling arm. -/
theorem pollDispatch_pending (data : TokenResponse)
    (h : data.error = some "authorization_pending") :
    pollDispatch data = .pending := by
  simp [pollDispatch, h]

/-- An error-free response with truthy token fields dispatches to the
success arm carrying its payload. -/
theorem pollDispatch_success (data : TokenResponse) (a r : String)
    (h : data = { access_token := some a, refresh_token := some r,
                  expires_in := data.expires_in, error := none })
    (ha : a ≠ "") (hr : r ≠ "") :
    pollDispatch data = .success a r data.expires_in := by
  rw [h]
  simp [pollDispatch, truthy, ha, hr]

/-- C8: a poll run that answers `authorization_pending` N times and
then a valid token payload returns that token and appends exactly one
token-store save — none on the pending iterations, one on success
(`tSucc` is the clock value of the successful iteration). -/
theorem poll_pending_then_success (resps : Nat → TokenResponse)
    (deadline : Int) (iso : Int → String) (a r : String) (expIn : Int) :
    ∀ (N fuel : Nat) (st : PollSt),
      (∀ i, i < N → (resps (st.k + i)).error = some "authorization_pending") →
      resps (st.k + N) = { access_token := some a, refresh_token := some r,
                           expires_in := expIn, error := none } →
      a ≠ "" → r ≠ "" →
      st.time + (N : Int) * st.pollInterval < deadline →
      0 ≤ st.pollInterval →
      N < fuel →
      ∃ (st' : PollSt) (tSucc : Int),
        runPoll resps deadline iso fuel st =
          some (.ok { accessToken := a, refreshToken := r,
                      expiresAt := iso (tSucc + expIn * 1000),
                      refreshedAt := none }, st') ∧
        st'.saves = st.saves ++
          [saveOAuthTokens
            { accessToken := a, refreshToken := r,
              expiresAt := iso (tSucc + expIn * 1000), refreshedAt := none }
            (iso tSucc)] := by
  intro N
  induction N with
  | zero =>
    intro fuel st hpend hsucc ha hr htime hI hfuel
    cases fuel with
    | zero => omega
    | succ n =>
      have hlt : st.time < deadline := by
        have h0 : st.time + (0 : Int) * st.pollInterval < deadline := by
          exact_mod_cast htime
        omega
      have hs : resps st.k = { access_token := some a, refresh_token := some r,
                               expires_in := expIn, error := none } := by
        have := hsucc
        rwa [Nat.add_zero] at this
      have hd : pollDispatch (resps st.k) = .success a r expIn := by
        have := pollDispatch_success (resps st.k) a r (by rw [hs]) ha hr
        rw [hs] at this ⊢
        simpa using this
      rw [runPoll, if_pos hlt]
      simp only [hd]
      exact ⟨_, st.time + st.pollInterval, rfl, rfl⟩
  | succ m ihm =>
    intro fuel st hpend hsucc ha hr htime hI hfuel
    cases fuel with
    | zero => omega
    | succ n =>
      have hNI : (0 : Int) ≤ ((m : Int) + 1) * st.pollInterval :=
        mul_nonneg (by positivity) hI
      have hlt : st.time < deadline := by
        have h0 : st.time + ((m : Int) + 1) * st.pollInterval < deadline := by
          exact_mod_cast htime
        omega
      have h0 := hpend 0 (Nat.succ_pos m)
      rw [Nat.add_zero] at h0
      have hd : pollDispatch (resps st.k) = .pending := pollDispatch_pending _ h0
      rw [runPoll, if_pos hlt]
      simp only [hd]
      obtain ⟨st', tSucc, heq, hsaves⟩ :=
        ihm n { st with time := st.time + st.pollInterval, k := st.k + 1 }
          (by
            intro i hi
            have := hpend (i + 1) (by omega)
            simpa [Nat.add_assoc, Nat.add_comm, Nat.add_left_comm] using this)
          (by
            have := hsucc
            simp only
            rwa [show st.k + 1 + m = st.k + (m + 1) by omega])
          ha hr
          (by
            simp only
            push_cast at htime
            nlinarith [htime])
          hI
          (by omega)
      exact ⟨st', tSucc, heq, hsaves⟩

/-- C8 (witness): two pending polls then a success, at a concrete
response sequence: the returned token is the payload and exactly one
save is recorded. -/
theorem poll_pending_then_success_witness :
    (∀ i, i < 2 →
      ((fun j => if j < 2 then pendingResp else
        ({ access_token := some "acc", refresh_token := some "ref",
           expires_in := 60, error := none } : TokenResponse)) (0 + i)).error =
        some "authorization_pending") ∧
    ∃ (st' : PollSt) (tSucc : Int),
      runPoll
        (fun j => if j < 2 then pendingResp else
          { access_token := some "acc", refresh_token := some "ref",
            expires_in := 60, error := none })
        100000 (fun n => toString n) 3
        { time := 0, pollInterval := 5000, k := 0, saves := [] } =
        some (.ok { accessToken := "acc", refreshToken := "ref",
                    expiresAt := (fun n => toString n) (tSucc + 60 * 1000),
                    refreshedAt := none }, st') ∧
      st'.saves = [] ++
        [saveOAuthTokens
          { accessToken := "acc", refreshToken := "ref",
            expiresAt := (fun n => toString n) (tSucc + 60 * 1000),
            refreshedAt := none }
          ((fun n => toString n) tSucc)] :=
  ⟨by decide,
   poll_pending_then_success
     (fun j => if j < 2 then pendingResp else
       { access_token := some "acc", refresh_token := some "ref",
         expires_in := 60, error := none })
     100000 (fun n => toString n) "acc" "ref" 60 2 3
     { time := 0, pollInterval := 5000, k := 0, saves := [] }
     (by decide) (by decide) (by decide) (by decide) (by decide) (by decide)
     (by decide)⟩

/-- C10 (counterexample): the at-most-one-loop invariant fails.  After
`start; stop; start`, the first spawned loop has not yet observed the
cleared flag when the second `start` finds `refreshLoopRunning = false`,
passes the guard and spawns a second loop; both then see the flag set
again at their next checks and keep running — two live loops. -/
theorem refreshLoop_two_loops :
    ¬ (runLoopEvents [.start, .stop, .start, .check, .check]).activeLoops ≤ 1 := by
  decide

/-- Invariant carried by guarded event sequences: at most one loop is
alive, and exactly one while the flag is set. -/
theorem guarded_foldl_invariant (evs : List LoopEv) :
    ∀ s : RefreshLoopState, s.activeLoops ≤ 1 →
      (s.running = true → s.activeLoops = 1) →
      guardedFrom s evs = true →
      (evs.foldl loopStepEv s).activeLoops ≤ 1 ∧
      ((evs.foldl loopStepEv s).running = true →
        (evs.foldl loopStepEv s).activeLoops = 1) := by
  induction evs with
  | nil => intro s h1 h2 _; exact ⟨h1, h2⟩
  | cons ev evs ih =>
    intro s h1 h2 hg
    simp only [guardedFrom, Bool.and_eq_true] at hg
    obtain ⟨hge, hgr⟩ := hg
    rw [List.foldl_cons]
    refine ih (loopStepEv s ev) ?_ ?_ hgr
    · cases ev with
      | start =>
        simp only [loopStepEv, startOAuthRefreshLoop]
        by_cases hr : s.running
        · simp [hr]; omega
        · simp only [hr, Bool.false_eq_true, if_false]
          simp only [hr, Bool.false_or, beq_iff_eq] at hge
          simp [hge]
      | stop => simpa [loopStepEv, stopOAuthRefreshLoop] using h1
      | check =>
        simp only [loopStepEv, refreshLoopCheck]
        by_cases hr : s.running
        · simpa [hr] using h1
        · simp only [hr, Bool.false_eq_true, if_false]
          show s.activeLoops - 1 ≤ 1
          omega
    · cases ev with
      | start =>
        simp only [loopStepEv, startOAuthRefreshLoop]
        by_cases hr : s.running
        · simpa [hr] using h2
        · simp only [hr, Bool.false_eq_true, if_false]
          simp only [hr, Bool.false_or, beq_iff_eq] at hge
          simp [hge]
      | stop => simp [loopStepEv, stopOAuthRefreshLoop]
      | check =>
        simp only [loopStepEv, refreshLoopCheck]
        by_cases hr : s.running
        · simpa [hr] using h2
        · simp [hr]

/-- C10 (amended): calling `startOAuthRefreshLoop` while the flag is
set is a no-op; `stopOAuthRefreshLoop` clears the flag and the loop
exits at its next cooperative check — provided no new `start` intervenes
before that check; and the at-most-one-loop invariant holds for every
event sequence in which `start` is never invoked during the window
between a `stop` and the stopped loop's final check (an unguarded
`start` in that window spawns a second concurrent loop, as the
counterexample shows). -/
theorem refreshLoop_amended :
    (∀ s : RefreshLoopState, s.running = true → startOAuthRefreshLoop s = s) ∧
    (∀ s : RefreshLoopState, (stopOAuthRefreshLoop s).running = false ∧
      refreshLoopCheck (stopOAuthRefreshLoop s) =
        { running := false, activeLoops := s.activeLoops - 1 }) ∧
    (∀ evs : List LoopEv, guardedFrom initialRefreshLoopState evs = true →
      (runLoopEvents evs).activeLoops ≤ 1) := by
  refine ⟨?_, ?_, ?_⟩
  · intro s hs
    simp [startOAuthRefreshLoop, hs]
  · intro s
    exact ⟨rfl, by simp [refreshLoopCheck, stopOAuthRefreshLoop]⟩
  · intro evs hg
    exact (guarded_foldl_invariant evs initialRefreshLoopState
      (by simp [initialRefreshLoopState])
      (by simp [initialRefreshLoopState]) hg).1

/-- C10 (witness): the guarded-sequence invariant at a concrete
sequence where the loop is stopped and checks out before a restart. -/
theorem refreshLoop_amended_witness :
    guardedFrom initialRefreshLoopState
      [.start, .stop, .check, .start, .check] = true ∧
    (runLoopEvents [.start, .stop, .check, .start, .check]).activeLoops ≤ 1 :=
  ⟨by decide,
   refreshLoop_amended.2.2 [.start, .stop, .check, .start, .check] (by decide)⟩

/-- A successful load implies the token file is present. -/
theorem load_file_ne_missing (file : FileState) (t : OAuthTokens)
    (h : loadOAuthTokens file = some t) : file ≠ .missing := by
  intro hf
  rw [hf] at h
  simp [loadOAuthTokens] at h

/-- Replaying poll saves never deletes the token file. -/
theorem applySaves_ne_missing (saves : List StoredDoc) :
    ∀ file : FileState, file ≠ .missing →
      applySaves file saves ≠ .missing := by
  induction saves with
  | nil => intro file h; simpa [applySaves] using h
  | cons d rest ih =>
    intro file h
    have : applySaves file (d :: rest) = applySaves (.stored d) rest := rfl
    rw [this]
    exact ih _ (by simp)

/-- A poll run performs fetches and saves, never a store clear. -/
theorem clearStore_not_mem_pollTrace (st : PollSt) :
    Effect.clearStore ∉ pollTrace st := by
  simp [pollTrace, List.mem_replicate]

/-- The session exchange performs fetches only, never a store clear. -/
theorem clearStore_not_mem_session (pr : HttpResult ProfilesResponse)
    (sr : HttpResult GameSessionResponse) :
    Effect.clearStore ∉ (createGameSession pr sr).2 := by
  cases pr with
  | httpError s => simp [createGameSession]
  | ok p =>
    cases hp : p.profiles with
    | nil => simp [createGameSession, hp]
    | cons q l =>
      cases sr with
      | httpError s => simp [createGameSession, hp]
      | ok sess =>
        by_cases h : sess.sessionToken = "" ∨ sess.identityToken = "" <;>
          simp [createGameSession, hp, h]

/-- Whatever the device challenge and poll outcomes, the interactive
fallback starts a device challenge, never clears the token store, and
leaves the token file present when it was present on entry. -/
theorem deviceBranch_props (env : Env) (w : World) (iso : Int → String)
    (fuel : Nat) (file : FileState) (tr : List Effect) (res : AcqResult)
    (hauto : env.autoAuthOnStart = true)
    (hfile : file ≠ .missing)
    (hclear : Effect.clearStore ∉ tr)
    (h : deviceBranch env w iso fuel file tr = some res) :
    res.file ≠ .missing ∧ Effect.clearStore ∉ res.trace ∧
      Effect.fetchDeviceAuth ∈ res.trace := by
  unfold deviceBranch at h
  rw [hauto, if_pos rfl] at h
  rcases hsd : startDeviceAuth w.deviceResp with e | d
  · rw [hsd] at h
    dsimp only at h
    simp only [Option.some_inj] at h
    subst h
    refine ⟨hfile, ?_, ?_⟩
    · simp [List.mem_append, hclear]
    · simp
  · rw [hsd] at h
    dsimp only at h
    rcases hpoll : pollForToken w.pollResps iso d.interval d.expires_in w.now fuel with
      _ | ⟨r, st⟩ <;> rw [hpoll] at h
    · simp at h
    · cases r with
      | error e =>
        dsimp only at h
        simp only [Option.some_inj] at h
        subst h
        refine ⟨applySaves_ne_missing _ _ hfile, ?_, ?_⟩
        · simp [List.mem_append, hclear, clearStore_not_mem_pollTrace st]
        · simp
      | ok t =>
        dsimp only at h
        rcases hcs : createGameSession w.profilesResp w.sessionResp with ⟨cr, es2⟩
        rw [hcs] at h
        cases cr with
        | ok s =>
          dsimp only at h
          simp only [Option.some_inj] at h
          subst h
          refine ⟨applySaves_ne_missing _ _ hfile, ?_, ?_⟩
          · have h2 := clearStore_not_mem_session w.profilesResp w.sessionResp
            rw [hcs] at h2
            simp [List.mem_append, hclear, clearStore_not_mem_pollTrace st, h2]
          · simp
        | error e =>
          dsimp only at h
          simp only [Option.some_inj] at h
          subst h
          refine ⟨applySaves_ne_missing _ _ hfile, ?_, ?_⟩
          · have h2 := clearStore_not_mem_session w.profilesResp w.sessionResp
            rw [hcs] at h2
            simp [List.mem_append, hclear, clearStore_not_mem_pollTrace st, h2]
          · simp

/-- C1 (counterexample): a refresh answered with `invalid_grant` does
not delete the token file.  At a concrete world whose stored tokens
have an expired access token and whose refresh endpoint answers
`invalid_grant`, the acquisition run ends with the token file still
holding the original document — `clearTokens` is never invoked (no code
path in the repository calls it). -/
theorem invalidGrant_does_not_clear_store :
    (acquireSessionTokens
        { sessionToken := "", identityToken := "", ownerUuid := "",
          autoAuthOnStart := true }
        { file := .stored { accessToken := some "at", refreshToken := some "rt",
                            expiresAt := some "EXP", refreshedAt := none }
          refreshResp := { access_token := none, refresh_token := none,
                           expires_in := 0, error := some "invalid_grant" }
          deviceResp := .ok { device_code := "dc", user_code := "uc",
                              verification_uri := "vu",
                              verification_uri_complete := "vuc",
                              expires_in := 600, interval := 5, error := none }
          pollResps := fun _ => { access_token := none, refresh_token := none,
                                  expires_in := 0, error := some "access_denied" }
          profilesResp := .httpError 500
          sessionResp := .httpError 500
          now := 10000000 }
        (fun s => if s = "EXP" then some 0 else none)
        (fun n => toString n) 5).map AcqResult.file =
      some (.stored { accessToken := some "at", refreshToken := some "rt",
                      expiresAt := some "EXP", refreshedAt := none }) ∧
    (FileState.stored { accessToken := some "at", refreshToken := some "rt",
                        expiresAt := some "EXP", refreshedAt := none }) ≠
      FileState.missing := by
  constructor
  · decide
  · decide

/-- C1 (amended): when the stored access token is expired and the
refresh endpoint answers `invalid_grant`, the refresh throws a generic
`Token refresh failed` error, the stored token file is NOT deleted (no
clear is ever issued, so the stale refresh token is retried by every
later run), and the same acquisition run with interactive authorization
enabled falls through to a fresh device challenge instead of building a
session from the stored tokens. -/
theorem invalidGrant_amended (env : Env) (w : World)
    (dateMs : String → Option Int) (iso : Int → String) (fuel : Nat)
    (t0 : OAuthTokens) (res : AcqResult)
    (hov : env.sessionToken = "")
    (hauto : env.autoAuthOnStart = true)
    (hload : loadOAuthTokens w.file = some t0)
    (hexp : isAccessTokenExpired dateMs w.now t0 = true)
    (herr : w.refreshResp.error = some "invalid_grant")
    (hres : acquireSessionTokens env w dateMs iso fuel = some res) :
    res.file ≠ .missing ∧ Effect.clearStore ∉ res.trace ∧
      Effect.fetchDeviceAuth ∈ res.trace := by
  have hrefresh : refreshOAuthTokens w.file w.refreshResp w.now iso =
      (.error ("Token refresh failed: " ++ "invalid_grant"), w.file,
        [.loadStore, .fetchTokenRefresh]) := by
    have hrt := load_refreshToken_ne _ _ hload
    simp only [refreshOAuthTokens, hload, herr]
    simp [hrt]
  unfold acquireSessionTokens at hres
  rw [hov] at hres
  rw [if_neg (by simp)] at hres
  rw [hload] at hres
  simp only [hexp, if_true, hrefresh] at hres
  exact deviceBranch_props env w iso fuel w.file _ res hauto
    (load_file_ne_missing _ _ hload) (by simp) hres

/-- C1 (witness): the amended statement at the concrete
`invalid_grant` world — the run keeps the file and reaches the device
endpoint. -/
theorem invalidGrant_amended_witness :
    acquireSessionTokens
      { sessionToken := "", identityToken := "", ownerUuid := "",
        autoAuthOnStart := true }
      { file := .stored { accessToken := some "at", refreshToken := some "rt",
                          expiresAt := some "EXP", refreshedAt := none }
        refreshResp := { access_token := none, refresh_token := none,
                         expires_in := 0, error := some "invalid_grant" }
        deviceResp := .ok { device_code := "dc", user_code := "uc",
                            verification_uri := "vu",
                            verification_uri_complete := "vuc",
                            expires_in := 600, interval := 5, error := none }
        pollResps := fun _ => { access_token := none, refresh_token := none,
                                expires_in := 0, error := some "access_denied" }
        profilesResp := .httpError 500
        sessionResp := .httpError 500
        now := 10000000 }
      (fun s => if s = "EXP" then some 0 else none)
      (fun n => toString n) 5 =
      some { result := none
             file := .stored { accessToken := some "at",
                               refreshToken := some "rt",
                               expiresAt := some "EXP", refreshedAt := none }
             trace := [.loadStore, .loadStore, .fetchTokenRefresh,
                       .fetchDeviceAuth, .fetchTokenPoll] } ∧
    (({ result := none
        file := .stored { accessToken := some "at", refreshToken := some "rt",
                          expiresAt := some "EXP", refreshedAt := none }
        trace := [.loadStore, .loadStore, .fetchTokenRefresh,
                  .fetchDeviceAuth, .fetchTokenPoll] } : AcqResult).file ≠
        .missing ∧
      Effect.clearStore ∉
        ([.loadStore, .loadStore, .fetchTokenRefresh, .fetchDeviceAuth,
          .fetchTokenPoll] : List Effect) ∧
      Effect.fetchDeviceAuth ∈
        ([.loadStore, .loadStore, .fetchTokenRefresh, .fetchDeviceAuth,
          .fetchTokenPoll] : List Effect)) :=
  ⟨by decide,
   invalidGrant_amended
     { sessionToken := "", identityToken := "", ownerUuid := "",
       autoAuthOnStart := true }
     { file := .stored { accessToken := some "at", refreshToken := some "rt",
                         expiresAt := some "EXP", refreshedAt := none }
       refreshResp := { access_token := none, refresh_token := none,
                        expires_in := 0, error := some "invalid_grant" }
       deviceResp := .ok { device_code := "dc", user_code := "uc",
                           verification_uri := "vu",
                           verification_uri_complete := "vuc",
                           expires_in := 600, interval := 5, error := none }
       pollResps := fun _ => { access_token := none, refresh_token := none,
                               expires_in := 0, error := some "access_denied" }
       profilesResp := .httpError 500
       sessionResp := .httpError 500
       now := 10000000 }
     (fun s => if s = "EXP" then some 0 else none)
     (fun n => toString n) 5
     { accessToken := "at", refreshToken := "rt", expiresAt := "EXP",
       refreshedAt := none }
     { result := none
       file := .stored { accessToken := some "at", refreshToken := some "rt",
                         expiresAt := some "EXP", refreshedAt := none }
       trace := [.loadStore, .loadStore, .fetchTokenRefresh,
                 .fetchDeviceAuth, .fetchTokenPoll] }
     rfl rfl (by decide) (by decide) rfl (by decide)⟩

end HytaleServer
